import Mathlib

/-!
Verification of the `biomebot` webhook gateway (`src/routes/github.rs`).

The Rust handler is shallowly embedded:
  * request bodies are byte lists (`List Nat`, each element < 256);
  * `serde_json::from_slice` is modelled by a recursive-descent JSON
    parser over the UTF-8 decoded bytes (numbers are modelled as
    integers; fractional/exponent literals and surrogate-pair escapes
    are rejected by the model, and serde's recursion limit is ignored —
    none of the verified properties depend on those corners);
  * `http::HeaderMap` is modelled as an association list of
    lowercase header names to string values, `get` returning the first
    value for a name and `insert` replacing every value for a name;
  * the HMAC-SHA256 signature check is embedded with a full
    executable SHA-256 over byte lists;
  * network sends are modelled as effects in the handler's result, with
    the success of each outbound call supplied as a boolean parameter.
-/

set_option maxRecDepth 8000

namespace Biomebot

/-- JSON values as produced by `serde_json` (integers only; object member
lists are kept key-deduplicated, last occurrence winning, matching
serde_json's map semantics). -/
inductive Json where
  | null : Json
  | bool (b : Bool) : Json
  | num (n : Int) : Json
  | str (s : String) : Json
  | arr (items : List Json) : Json
  | obj (members : List (String × Json)) : Json

/-- JSON whitespace as accepted by serde_json. -/
def jsonSpace (c : Char) : Bool :=
  c == ' ' || c == '\t' || c == '\n' || c == '\r'

def skipWs (cs : List Char) : List Char :=
  cs.dropWhile jsonSpace

def isJsonDigit (c : Char) : Bool :=
  48 ≤ c.toNat && c.toNat ≤ 57

def digitsVal : List Char → Nat → Nat
  | [], acc => acc
  | c :: rest, acc => digitsVal rest (acc * 10 + (c.toNat - 48))

/-- Parse a JSON natural-number token (leading-zero rule: a leading `0`
ends the number). -/
def parseNatToken : List Char → Option (Nat × List Char)
  | [] => none
  | c :: rest =>
    if c == '0' then some (0, rest)
    else if isJsonDigit c then
      some (digitsVal (c :: rest.takeWhile isJsonDigit) 0, rest.dropWhile isJsonDigit)
    else none

def parseIntToken : List Char → Option (Int × List Char)
  | '-' :: rest => (parseNatToken rest).map (fun p => (-(p.1 : Int), p.2))
  | cs => (parseNatToken cs).map (fun p => ((p.1 : Int), p.2))

/-- Value of one hex digit, upper or lower case (as accepted by the
`hex` crate's decoder and by JSON `\u` escapes). -/
def hexDigitVal (c : Char) : Option Nat :=
  if 48 ≤ c.toNat ∧ c.toNat ≤ 57 then some (c.toNat - 48)
  else if 97 ≤ c.toNat ∧ c.toNat ≤ 102 then some (c.toNat - 87)
  else if 65 ≤ c.toNat ∧ c.toNat ≤ 70 then some (c.toNat - 55)
  else none

/-- Parse the body of a JSON string literal (after the opening quote),
returning the string's characters and the input after the closing
quote.  The fuel argument dominates the input length. -/
def parseStringBody : Nat → List Char → Option (List Char × List Char)
  | 0, _ => none
  | _, [] => none
  | fuel+1, c :: rest =>
    if c == '"' then some ([], rest)
    else if c == '\\' then
      match rest with
      | [] => none
      | e :: rest2 =>
        let decoded : Option (Char × List Char) :=
          if e == '"' then some ('"', rest2)
          else if e == '\\' then some ('\\', rest2)
          else if e == '/' then some ('/', rest2)
          else if e == 'b' then some (Char.ofNat 8, rest2)
          else if e == 'f' then some (Char.ofNat 12, rest2)
          else if e == 'n' then some ('\n', rest2)
          else if e == 'r' then some ('\r', rest2)
          else if e == 't' then some ('\t', rest2)
          else if e == 'u' then
            match rest2 with
            | h1 :: h2 :: h3 :: h4 :: rest3 => do
              let v1 ← hexDigitVal h1
              let v2 ← hexDigitVal h2
              let v3 ← hexDigitVal h3
              let v4 ← hexDigitVal h4
              let n := 4096 * v1 + 256 * v2 + 16 * v3 + v4
              if 55296 ≤ n ∧ n ≤ 57343 then none else some (Char.ofNat n, rest3)
            | _ => none
          else none
        match decoded with
        | none => none
        | some (ch, r) =>
          (parseStringBody fuel r).map (fun p => (ch :: p.1, p.2))
    else if c.toNat < 32 then none
    else (parseStringBody fuel rest).map (fun p => (c :: p.1, p.2))

/-- Insert a member into an object member list, replacing an existing
member with the same key (serde_json maps keep the last occurrence of a
duplicated key). -/
def insertMember (l : List (String × Json)) (k : String) (v : Json) :
    List (String × Json) :=
  if l.any (fun p => p.1 == k) then
    l.map (fun p => if p.1 == k then (k, v) else p)
  else l ++ [(k, v)]

def dedupMembers (ms : List (String × Json)) : List (String × Json) :=
  ms.foldl (fun l p => insertMember l p.1 p.2) []

/-- The mutually recursive states of the recursive-descent parser,
folded into one recursion on fuel so that the parser is structurally
recursive (and hence evaluable inside the kernel). -/
inductive PState where
  /-- parse one JSON value -/
  | value : PState
  /-- after `[`: parse the items of an array -/
  | items : PState
  /-- after one array item: `,` and a further item, or `]` -/
  | itemsMore (acc : List Json) : PState
  /-- after an opening brace: parse the members of an object -/
  | members : PState
  /-- after one member: `,` and a further member, or a closing brace -/
  | membersMore (acc : List (String × Json)) : PState
  /-- after a member key: `:` and the member value -/
  | memberValue : PState

/-- The recursive-descent JSON parser.  Every recursive call consumes at
least one input character before re-entering, so fuel exceeding the
input length never runs out. -/
def parseRun : Nat → PState → List Char → Option (Json × List Char)
  | 0, _, _ => none
  | fuel+1, .value, cs =>
    match skipWs cs with
    | [] => none
    | 't' :: 'r' :: 'u' :: 'e' :: rest => some (.bool true, rest)
    | 'f' :: 'a' :: 'l' :: 's' :: 'e' :: rest => some (.bool false, rest)
    | 'n' :: 'u' :: 'l' :: 'l' :: rest => some (.null, rest)
    | '"' :: rest =>
      (parseStringBody (rest.length + 1) rest).map
        (fun p => (.str (String.mk p.1), p.2))
    | '[' :: rest => parseRun fuel .items rest
    | '{' :: rest => parseRun fuel .members rest
    | c :: rest =>
      if c == '-' || isJsonDigit c then
        (parseIntToken (c :: rest)).map (fun p => (.num p.1, p.2))
      else none
  | fuel+1, .items, cs =>
    match skipWs cs with
    | ']' :: rest => some (.arr [], rest)
    | cs' =>
      match parseRun fuel .value cs' with
      | none => none
      | some (v, r) => parseRun fuel (.itemsMore [v]) r
  | fuel+1, .itemsMore acc, cs =>
    match skipWs cs with
    | ']' :: rest => some (.arr acc.reverse, rest)
    | ',' :: rest =>
      match parseRun fuel .value rest with
      | none => none
      | some (v, r) => parseRun fuel (.itemsMore (v :: acc)) r
    | _ => none
  | fuel+1, .members, cs =>
    match skipWs cs with
    | '}' :: rest => some (.obj [], rest)
    | '"' :: rest =>
      match parseStringBody (rest.length + 1) rest with
      | none => none
      | some (k, r) =>
        match parseRun fuel .memberValue r with
        | none => none
        | some (v, r2) => parseRun fuel (.membersMore [(String.mk k, v)]) r2
    | _ => none
  | fuel+1, .membersMore acc, cs =>
    match skipWs cs with
    | '}' :: rest => some (.obj (dedupMembers acc.reverse), rest)
    | ',' :: rest =>
      match skipWs rest with
      | '"' :: rest2 =>
        match parseStringBody (rest2.length + 1) rest2 with
        | none => none
        | some (k, r) =>
          match parseRun fuel .memberValue r with
          | none => none
          | some (v, r2) =>
            parseRun fuel (.membersMore ((String.mk k, v) :: acc)) r2
      | _ => none
    | _ => none
  | fuel+1, .memberValue, cs =>
    match skipWs cs with
    | ':' :: rest => parseRun fuel .value rest
    | _ => none

def parseValue (fuel : Nat) (cs : List Char) : Option (Json × List Char) :=
  parseRun fuel .value cs

/-- Is `b` a UTF-8 continuation byte? -/
def contByte (b : Nat) : Bool :=
  128 ≤ b && b ≤ 191

/-- Strict UTF-8 decoding of a byte list (rejects overlong forms,
surrogates and out-of-range code points), as `serde_json` requires of
its input. -/
def utf8Decode : List Nat → Option (List Char)
  | [] => some []
  | b :: rest =>
    if b ≤ 127 then (utf8Decode rest).map (fun cs => Char.ofNat b :: cs)
    else if 194 ≤ b && b ≤ 223 then
      match rest with
      | c1 :: rest1 =>
        if contByte c1 then
          (utf8Decode rest1).map
            (fun cs => Char.ofNat ((b - 192) * 64 + (c1 - 128)) :: cs)
        else none
      | _ => none
    else if 224 ≤ b && b ≤ 239 then
      match rest with
      | c1 :: c2 :: rest2 =>
        let ok1 : Bool :=
          if b == 224 then 160 ≤ c1 && c1 ≤ 191
          else if b == 237 then 128 ≤ c1 && c1 ≤ 159
          else contByte c1
        if ok1 && contByte c2 then
          (utf8Decode rest2).map
            (fun cs =>
              Char.ofNat ((b - 224) * 4096 + (c1 - 128) * 64 + (c2 - 128)) :: cs)
        else none
      | _ => none
    else if 240 ≤ b && b ≤ 244 then
      match rest with
      | c1 :: c2 :: c3 :: rest3 =>
        let ok1 : Bool :=
          if b == 240 then 144 ≤ c1 && c1 ≤ 191
          else if b == 244 then 128 ≤ c1 && c1 ≤ 143
          else contByte c1
        if ok1 && contByte c2 && contByte c3 then
          (utf8Decode rest3).map
            (fun cs =>
              Char.ofNat
                ((b - 240) * 262144 + (c1 - 128) * 4096 + (c2 - 128) * 64 +
                  (c3 - 128)) :: cs)
        else none
      | _ => none
    else none

/-- Model of `serde_json::from_slice::<Value>`: UTF-8 decode, parse one
value, and require only trailing whitespace after it. -/
def parseJson (body : List Nat) : Option Json := do
  let cs ← utf8Decode body
  let (v, rest) ← parseValue (cs.length + 1) cs
  if skipWs rest = [] then some v else none

/-- Model of `serde_json::Value::get` with a string index: member lookup
on objects, `None` on every other value. -/
def jsonGet (j : Json) (key : String) : Option Json :=
  match j with
  | .obj members => (members.find? (fun p => p.1 == key)).map (fun p => p.2)
  | _ => none

/-- Model of `serde_json::Value::as_str`. -/
def jsonAsStr : Json → Option String
  | .str s => some s
  | _ => none

/-- `is_human_user` from `src/routes/github.rs`: the sender's `type`
field must be the JSON string `"User"`. -/
def is_human_user (json : Json) : Bool :=
  (((jsonGet json "sender").bind (fun sender => jsonGet sender "type")).bind
      jsonAsStr).elim false (fun user_type => user_type == "User")

/-! ### SHA-256 and HMAC-SHA256 over byte lists (the `sha2`/`hmac` crates) -/

/-- Truncate to a 32-bit word. -/
def w32 (n : Nat) : Nat := n % 4294967296

/-- Right rotation of a 32-bit word. -/
def rotr32 (n x : Nat) : Nat := w32 ((x >>> n) ||| (x <<< (32 - n)))

/-- The 64 SHA-256 round constants of FIPS 180-4, written in decimal. -/
def sha256K : List Nat :=
  [1116352408, 1899447441, 3049323471, 3921009573, 961987163, 1508970993,
   2453635748, 2870763221, 3624381080, 310598401, 607225278, 1426881987,
   1925078388, 2162078206, 2614888103, 3248222580, 3835390401, 4022224774,
   264347078, 604807628, 770255983, 1249150122, 1555081692, 1996064986,
   2554220882, 2821834349, 2952996808, 3210313671, 3336571891, 3584528711,
   113926993, 338241895, 666307205, 773529912, 1294757372, 1396182291,
   1695183700, 1986661051, 2177026350, 2456956037, 2730485921, 2820302411,
   3259730800, 3345764771, 3516065817, 3600352804, 4094571909, 275423344,
   430227734, 506948616, 659060556, 883997877, 958139571, 1322822218,
   1537002063, 1747873779, 1955562222, 2024104815, 2227730452, 2361852424,
   2428436474, 2756734187, 3204031479, 3329325298]

/-- Big-endian packing of bytes into 32-bit words. -/
def bytesToWords : List Nat → List Nat
  | b0 :: b1 :: b2 :: b3 :: rest =>
    (b0 * 16777216 + b1 * 65536 + b2 * 256 + b3) :: bytesToWords rest
  | _ => []

/-- One step of the SHA-256 message-schedule extension. -/
def schedStep (w : Array Nat) (i : Nat) : Array Nat :=
  let w15 := w.getD (i - 15) 0
  let w2 := w.getD (i - 2) 0
  let s0 := rotr32 7 w15 ^^^ rotr32 18 w15 ^^^ (w15 >>> 3)
  let s1 := rotr32 17 w2 ^^^ rotr32 19 w2 ^^^ (w2 >>> 10)
  w.push (w32 (w.getD (i - 16) 0 + s0 + w.getD (i - 7) 0 + s1))

/-- The 64-word message schedule of one 64-byte block. -/
def msgSchedule (block : List Nat) : List Nat :=
  ((List.range 48).foldl (fun w j => schedStep w (j + 16))
    (bytesToWords block).toArray).toList

/-- The eight 32-bit words of SHA-256 working state. -/
structure Sha256State where
  a : Nat
  b : Nat
  c : Nat
  d : Nat
  e : Nat
  f : Nat
  g : Nat
  h : Nat

/-- The eight SHA-256 initial hash values, written in decimal. -/
def sha256Init : Sha256State :=
  ⟨1779033703, 3144134277, 1013904242, 2773480762,
   1359893119, 2600822924, 528734635, 1541459225⟩

/-- One SHA-256 round, consuming one (round constant, schedule word)
pair. -/
def sha256Round (st : Sha256State) (kw : Nat × Nat) : Sha256State :=
  let S1 := rotr32 6 st.e ^^^ rotr32 11 st.e ^^^ rotr32 25 st.e
  let ch := (st.e &&& st.f) ^^^ ((4294967295 ^^^ st.e) &&& st.g)
  let temp1 := w32 (st.h + S1 + ch + kw.1 + kw.2)
  let S0 := rotr32 2 st.a ^^^ rotr32 13 st.a ^^^ rotr32 22 st.a
  let maj := (st.a &&& st.b) ^^^ (st.a &&& st.c) ^^^ (st.b &&& st.c)
  let temp2 := w32 (S0 + maj)
  ⟨w32 (temp1 + temp2), st.a, st.b, st.c, w32 (st.d + temp1), st.e, st.f, st.g⟩

/-- Compression of one 64-byte block. -/
def sha256Compress (st : Sha256State) (block : List Nat) : Sha256State :=
  let r := (sha256K.zip (msgSchedule block)).foldl sha256Round st
  ⟨w32 (st.a + r.a), w32 (st.b + r.b), w32 (st.c + r.c), w32 (st.d + r.d),
   w32 (st.e + r.e), w32 (st.f + r.f), w32 (st.g + r.g), w32 (st.h + r.h)⟩

/-- SHA-256 padding: a `0x80` byte, zeros, and the 64-bit big-endian bit
length, to a multiple of 64 bytes. -/
def sha256Pad (msg : List Nat) : List Nat :=
  let len := msg.length
  let zeros := (120 - ((len + 1) % 64)) % 64
  let bitLen := len * 8
  msg ++ [128] ++ List.replicate zeros 0 ++
    [(bitLen >>> 56) % 256, (bitLen >>> 48) % 256, (bitLen >>> 40) % 256,
     (bitLen >>> 32) % 256, (bitLen >>> 24) % 256, (bitLen >>> 16) % 256,
     (bitLen >>> 8) % 256, bitLen % 256]

/-- Fold the compression function over the first `n` 64-byte blocks of a
padded message (the padded length is an exact multiple of 64, so `n` is
taken to be its length divided by 64). -/
def sha256Blocks : Nat → Sha256State → List Nat → Sha256State
  | 0, st, _ => st
  | n+1, st, l => sha256Blocks n (sha256Compress st (l.take 64)) (l.drop 64)

/-- Big-endian bytes of one 32-bit word. -/
def wordBytes (w : Nat) : List Nat :=
  [(w >>> 24) % 256, (w >>> 16) % 256, (w >>> 8) % 256, w % 256]

/-- SHA-256 of a byte list, as 32 bytes. -/
def sha256 (msg : List Nat) : List Nat :=
  let padded := sha256Pad msg
  let st := sha256Blocks (padded.length / 64) sha256Init padded
  wordBytes st.a ++ wordBytes st.b ++ wordBytes st.c ++ wordBytes st.d ++
    wordBytes st.e ++ wordBytes st.f ++ wordBytes st.g ++ wordBytes st.h

/-- HMAC-SHA256 (`Hmac::<Sha256>`): block size 64; a longer key is first
hashed.  `new_from_slice` never fails for HMAC, so the embedding is
total. -/
def hmacSha256 (key msg : List Nat) : List Nat :=
  let k0 := if 64 < key.length then sha256 key else key
  let kp := k0 ++ List.replicate (64 - k0.length) 0
  sha256 ((kp.map (fun b => b ^^^ 92)) ++
    sha256 ((kp.map (fun b => b ^^^ 54)) ++ msg))

/-- UTF-8 encoding of one character (for Rust's `str::as_bytes`). -/
def utf8EncodeChar (c : Char) : List Nat :=
  let n := c.toNat
  if n < 128 then [n]
  else if n < 2048 then [192 + n / 64, 128 + n % 64]
  else if n < 65536 then [224 + n / 4096, 128 + (n / 64) % 64, 128 + n % 64]
  else
    [240 + n / 262144, 128 + (n / 4096) % 64, 128 + (n / 64) % 64, 128 + n % 64]

/-- The UTF-8 bytes of a string (Rust's `str::as_bytes`). -/
def utf8Bytes (s : String) : List Nat :=
  s.toList.flatMap utf8EncodeChar

/-- Lowercase hex digit (as produced by `hex::encode`). -/
def hexDigitChar (n : Nat) : Char :=
  if n < 10 then Char.ofNat (48 + n) else Char.ofNat (87 + n)

/-- Lowercase hex encoding of a byte list (`hex::encode`). -/
def hexEncodeBytes : List Nat → List Char
  | [] => []
  | b :: rest => hexDigitChar (b / 16) :: hexDigitChar (b % 16) :: hexEncodeBytes rest

def hexEncode (bs : List Nat) : String := String.mk (hexEncodeBytes bs)

/-- `hex::decode`: requires even length and only hex digits (either
case); otherwise fails. -/
def hexDecodeChars : List Char → Option (List Nat)
  | [] => some []
  | [_] => none
  | c1 :: c2 :: rest => do
    let v1 ← hexDigitVal c1
    let v2 ← hexDigitVal c2
    let vs ← hexDecodeChars rest
    pure ((16 * v1 + v2) :: vs)

def hexDecode (s : String) : Option (List Nat) := hexDecodeChars s.toList

/-! ### Header map model

`http::HeaderMap` is a multimap from lowercase header names to values
(header names of a parsed request are normalized to lowercase).  It is
embedded as the list of its (name, value) pairs in iteration order:
`get` returns the first value for a name, `insert` removes every value
for the name and appends the new one.  Header values are embedded as
strings (`HeaderValue::to_str`, which only fails on non-visible-ASCII
bytes, is absorbed into the model: a value on which it fails could not
be a hex signature nor the literal `"issues"`, so every use below
already maps such values to the same failure branch). -/

abbrev Headers := List (String × String)

/-- `HeaderMap::get`: first value for the name. -/
def headerGet (headers : Headers) (name : String) : Option String :=
  (headers.find? (fun p => p.1 == name)).map (fun p => p.2)

/-- `HeaderMap::insert`: drops all previous values for the name. -/
def headerInsert (m : Headers) (k v : String) : Headers :=
  m.filter (fun p => p.1 ≠ k) ++ [(k, v)]

/-! ### The signature check (`is_authorized`, `extract_signature`) -/

/-- The characters of the literal `"sha256="`. -/
def sigPat : List Char := ['s', 'h', 'a', '2', '5', '6', '=']

/-- Rust's `str::trim_start_matches("sha256=")`: removes the leading
occurrence of `sha256=` repeatedly, as long as it matches. -/
def trimSha256 : List Char → List Char
  | 's' :: 'h' :: 'a' :: '2' :: '5' :: '6' :: '=' :: rest => trimSha256 rest
  | cs => cs

/-- `extract_signature` from `src/routes/github.rs`. -/
def extract_signature (headers : Headers) : Option String :=
  (headerGet headers "x-hub-signature-256").map
    (fun s => String.mk (trimSha256 s.toList))

/-- `subtle`'s `ConstantTimeEq` on byte slices: false on a length
mismatch, otherwise the conjunction of the pointwise byte comparisons,
accumulated without short-circuiting.  (The constant-time execution
itself is a timing property outside the embedding; functionally the
comparison is equality.) -/
def ctEq (x y : List Nat) : Bool :=
  (x.length == y.length) &&
    ((x.zip y).foldl (fun acc p => acc && (p.1 == p.2)) true)

/-- `is_authorized` from `src/routes/github.rs`: extract the signature
header, compute HMAC-SHA256 of the raw body under the secret, hex-decode
the header digest, and compare in constant time.  Every failure returns
`false`. -/
def is_authorized (headers : Headers) (body : List Nat) (secret : String) :
    Bool :=
  match extract_signature headers with
  | none => false
  | some header_signature =>
    let calculated_signature := hmacSha256 (utf8Bytes secret) body
    match hexDecode header_signature with
    | none => false
    | some decoded => ctEq decoded calculated_signature

/-! ### Event classification -/

/-- `GithubEvent` from `src/routes/github.rs`. -/
inductive GithubEvent where
  | issues : GithubEvent
  | pullRequest : GithubEvent
  deriving DecidableEq

/-- `GithubEvent::from_str`. -/
def githubEventFromStr (s : String) : Except String GithubEvent :=
  if s = "issues" then .ok .issues
  else if s = "pull_request" then .ok .pullRequest
  else .error ("Received unrecognized event: " ++ s)

/-- `is_issues_event` from `src/routes/github.rs`. -/
def is_issues_event (headers : Headers) : Bool :=
  match headerGet headers "x-github-event" with
  | none => false
  | some event_header =>
    match githubEventFromStr event_header with
    | .ok .issues => true
    | _ => false

/-! ### The issue-event data model (`serde` derives) -/

/-- `GithubIssuesAction` from `src/routes/github.rs`. -/
inductive GithubIssuesAction where
  | assigned | closed | deleted | demilestoned | edited | labeled
  | locked | milestoned | opened | pinned | reopened | transferred
  | unassigned | unlabeled | unlocked | unpinned
  deriving DecidableEq

/-- `GithubIssuesAction::from_str`. -/
def githubIssuesActionFromStr (s : String) :
    Except String GithubIssuesAction :=
  if s = "assigned" then .ok .assigned
  else if s = "closed" then .ok .closed
  else if s = "deleted" then .ok .deleted
  else if s = "demilestoned" then .ok .demilestoned
  else if s = "edited" then .ok .edited
  else if s = "labeled" then .ok .labeled
  else if s = "locked" then .ok .locked
  else if s = "milestoned" then .ok .milestoned
  else if s = "opened" then .ok .opened
  else if s = "pinned" then .ok .pinned
  else if s = "reopened" then .ok .reopened
  else if s = "transferred" then .ok .transferred
  else if s = "unassigned" then .ok .unassigned
  else if s = "unlabeled" then .ok .unlabeled
  else if s = "unlocked" then .ok .unlocked
  else if s = "unpinned" then .ok .unpinned
  else .error ("Unknown Github Issue Action: " ++ s)

/-- `GithubIssuesAction::is_label`. -/
def GithubIssuesAction.is_label : GithubIssuesAction → Bool
  | .labeled => true
  | .unlabeled => true
  | _ => false

/-- `GithubUser` (the `type` JSON field is renamed to `user_type`). -/
structure GithubUser where
  id : Nat
  login : String
  user_type : Option String
  avatar_url : Option String

/-- `GithubIssueLabel`. -/
structure GithubIssueLabel where
  color : String
  default : Bool
  description : Option String
  id : Nat
  name : String
  node_id : String
  url : String

/-- `chrono::DateTime<Utc>` abstracted to the RFC 3339 text it was
deserialized from (no verified property inspects the parsed instant). -/
structure DateTimeUtc where
  raw : String

/-- `GithubIssue`. -/
structure GithubIssue where
  active_lock_reason : Option String
  assignees : List (Option GithubUser)
  author_association : String
  body : Option String
  labels : List GithubIssueLabel
  node_id : String
  number : Int
  repository_url : String
  state : String
  title : String
  url : String
  html_url : String
  user : Option GithubUser
  created_at : DateTimeUtc
  updated_at : DateTimeUtc
  closed_at : Option DateTimeUtc

/-- `GithubRepository` (`private` is a Lean keyword, hence `private_`). -/
structure GithubRepository where
  id : Int
  node_id : String
  name : String
  full_name : String
  private_ : Bool

/-- `GithubIssueLabelEvent`. -/
structure GithubIssueLabelEvent where
  action : String
  issue : GithubIssue
  label : Option GithubIssueLabel
  repository : GithubRepository
  sender : GithubUser

/-- `GithubIssueLabelEvent::should_report`: true when the action is
`labeled`, the issue is open and the added label is named
`good first issue`. -/
def should_report (e : GithubIssueLabelEvent) : Bool :=
  e.action == "labeled" && e.issue.state == "open" &&
    (match e.label with
     | none => false
     | some label => label.name == "good first issue")

/-! ### `serde` decoding of the issue-event structures

The derived `Deserialize` impls are embedded field-by-field: a required
field must be present with the right type, an `Option` field is `none`
when missing or `null`.  (serde's alternative positional decoding of
structs from JSON arrays is not modelled; no verified property relies
on a structured decode of an array payload.) -/

def jsonAsBool : Json → Option Bool
  | .bool b => some b
  | _ => none

/-- `u64` from a JSON number. -/
def jsonAsU64 : Json → Option Nat
  | .num n => if 0 ≤ n ∧ n ≤ 18446744073709551615 then some n.toNat else none
  | _ => none

/-- `i64` from a JSON number. -/
def jsonAsI64 : Json → Option Int
  | .num n =>
    if -9223372036854775808 ≤ n ∧ n ≤ 9223372036854775807 then some n
    else none
  | _ => none

/-- Decode an `Option<T>` field: missing or `null` is `None`. -/
def decodeOptField (field : Option Json) (d : Json → Option α) :
    Option (Option α) :=
  match field with
  | none => some none
  | some .null => some none
  | some v => (d v).map some

/-- Decode every element of a JSON array. -/
def decodeElems (d : Json → Option α) : List Json → Option (List α)
  | [] => some []
  | j :: rest => do
    let x ← d j
    let xs ← decodeElems d rest
    pure (x :: xs)

def decodeList (d : Json → Option α) (j : Json) : Option (List α) :=
  match j with
  | .arr items => decodeElems d items
  | _ => none

/-- `chrono::DateTime<Utc>` deserializes from an RFC 3339 string; the
instant itself is abstracted, only stringhood is checked. -/
def decodeDateTime (j : Json) : Option DateTimeUtc :=
  (jsonAsStr j).map DateTimeUtc.mk

def decodeUser (j : Json) : Option GithubUser := do
  let id ← jsonGet j "id" >>= jsonAsU64
  let login ← jsonGet j "login" >>= jsonAsStr
  let user_type ← decodeOptField (jsonGet j "type") jsonAsStr
  let avatar_url ← decodeOptField (jsonGet j "avatar_url") jsonAsStr
  pure { id, login, user_type, avatar_url }

def decodeLabel (j : Json) : Option GithubIssueLabel := do
  let color ← jsonGet j "color" >>= jsonAsStr
  let dflt ← jsonGet j "default" >>= jsonAsBool
  let description ← decodeOptField (jsonGet j "description") jsonAsStr
  let id ← jsonGet j "id" >>= jsonAsU64
  let name ← jsonGet j "name" >>= jsonAsStr
  let node_id ← jsonGet j "node_id" >>= jsonAsStr
  let url ← jsonGet j "url" >>= jsonAsStr
  pure { color, default := dflt, description, id, name, node_id, url }

/-- First four fields of `GithubIssue` (the sixteen-field decode is
split into groups of four only to keep elaboration tractable; the
decoded record is identical). -/
def decodeIssueFieldsA (j : Json) :
    Option (Option String × List (Option GithubUser) × String ×
      Option String) := do
  let a ← decodeOptField (jsonGet j "active_lock_reason") jsonAsStr
  let b ← jsonGet j "assignees" >>=
    decodeList (fun u => decodeOptField (some u) decodeUser)
  let c ← jsonGet j "author_association" >>= jsonAsStr
  let d ← decodeOptField (jsonGet j "body") jsonAsStr
  pure (a, b, c, d)

/-- Fields `labels`, `node_id`, `number`, `repository_url`. -/
def decodeIssueFieldsB (j : Json) :
    Option (List GithubIssueLabel × String × Int × String) := do
  let a ← jsonGet j "labels" >>= decodeList decodeLabel
  let b ← jsonGet j "node_id" >>= jsonAsStr
  let c ← jsonGet j "number" >>= jsonAsI64
  let d ← jsonGet j "repository_url" >>= jsonAsStr
  pure (a, b, c, d)

/-- Fields `state`, `title`, `url`, `html_url`. -/
def decodeIssueFieldsC (j : Json) :
    Option (String × String × String × String) := do
  let a ← jsonGet j "state" >>= jsonAsStr
  let b ← jsonGet j "title" >>= jsonAsStr
  let c ← jsonGet j "url" >>= jsonAsStr
  let d ← jsonGet j "html_url" >>= jsonAsStr
  pure (a, b, c, d)

/-- Fields `user`, `created_at`, `updated_at`, `closed_at`. -/
def decodeIssueFieldsD (j : Json) :
    Option (Option GithubUser × DateTimeUtc × DateTimeUtc ×
      Option DateTimeUtc) := do
  let a ← decodeOptField (jsonGet j "user") decodeUser
  let b ← jsonGet j "created_at" >>= decodeDateTime
  let c ← jsonGet j "updated_at" >>= decodeDateTime
  let d ← decodeOptField (jsonGet j "closed_at") decodeDateTime
  pure (a, b, c, d)

def decodeIssue (j : Json) : Option GithubIssue := do
  let (active_lock_reason, assignees, author_association, body) ←
    decodeIssueFieldsA j
  let (labels, node_id, number, repository_url) ← decodeIssueFieldsB j
  let (state, title, url, html_url) ← decodeIssueFieldsC j
  let (user, created_at, updated_at, closed_at) ← decodeIssueFieldsD j
  pure { active_lock_reason, assignees, author_association, body, labels,
         node_id, number, repository_url, state, title, url, html_url, user,
         created_at, updated_at, closed_at }

def decodeRepository (j : Json) : Option GithubRepository := do
  let id ← jsonGet j "id" >>= jsonAsI64
  let node_id ← jsonGet j "node_id" >>= jsonAsStr
  let name ← jsonGet j "name" >>= jsonAsStr
  let full_name ← jsonGet j "full_name" >>= jsonAsStr
  let private_ ← jsonGet j "private" >>= jsonAsBool
  pure { id, node_id, name, full_name, private_ }

def decodeLabelEvent (j : Json) : Option GithubIssueLabelEvent := do
  let action ← jsonGet j "action" >>= jsonAsStr
  let issue ← jsonGet j "issue" >>= decodeIssue
  let label ← decodeOptField (jsonGet j "label") decodeLabel
  let repository ← jsonGet j "repository" >>= decodeRepository
  let sender ← jsonGet j "sender" >>= decodeUser
  pure { action, issue, label, repository, sender }

/-- `serde_json::from_slice::<GithubIssueLabelEvent>`. -/
def fromSliceLabelEvent (body : List Nat) :
    Except String GithubIssueLabelEvent :=
  match parseJson body with
  | none => .error "invalid json body"
  | some j =>
    match decodeLabelEvent j with
    | none => .error "json body does not match GithubIssueLabelEvent"
    | some ev => .ok ev

/-! ### The endpoint pipeline (`handle_gh` and its helpers) -/

/-- `get_issue_action` from `src/routes/github.rs`: parse the body as a
JSON value, read its top-level `action` field as a string, and map it to
the closed action enumeration; each failure is an error. -/
def getIssueAction (body : List Nat) : Except String GithubIssuesAction :=
  match parseJson body with
  | none => .error "invalid json body"
  | some j =>
    match jsonGet j "action" with
    | none => .error "Json body for issue event is missing required action field"
    | some v =>
      match jsonAsStr v with
      | none => .error "Field action on issues json body is not a string."
      | some s => githubIssuesActionFromStr s

/-- The observable outbound calls of one request. -/
inductive Effect where
  /-- `post_to_activity_webhook`: raw forward with sanitized headers. -/
  | activity (headers : Headers) (body : List Nat) : Effect
  /-- `post_good_first_issue`: the rich notification to the issues sink. -/
  | goodFirstIssue : Effect
  deriving DecidableEq

/-- The header-sanitizing loop of `post_to_activity_webhook`: every
(name, value) pair whose name is neither `authorization` nor `host` is
`insert`ed into a fresh map, in iteration order. -/
def forwardHeaders (headers : Headers) : Headers :=
  headers.foldl
    (fun m p =>
      if p.1 ≠ "authorization" ∧ p.1 ≠ "host" then headerInsert m p.1 p.2
      else m)
    []

/-- The outbound request built by `post_to_activity_webhook` (the network
send itself is abstracted; its success is a parameter of `handleGh`). -/
structure OutboundRequest where
  url : String
  headers : Headers
  body : List Nat

def post_to_activity_webhook (activity_webhook : String) (body : List Nat)
    (headers : Headers) : OutboundRequest :=
  { url := activity_webhook, headers := forwardHeaders headers, body := body }

/-- `handle_issues` from `src/routes/github.rs`, returning the result
together with the outbound calls attempted.  `issuesOk` is whether the
notification delivery to the issues sink succeeds. -/
def handleIssues (body : List Nat) (issuesOk : Bool) :
    Except String Unit × List Effect :=
  match getIssueAction body with
  | .error e => (.error e, [])
  | .ok act =>
    if !act.is_label then (.ok (), [])
    else
      match fromSliceLabelEvent body with
      | .error e => (.error e, [])
      | .ok label_event =>
        if should_report label_event then
          if issuesOk then (.ok (), [.goodFirstIssue])
          else (.error "Failed to send message to webhook", [.goodFirstIssue])
        else (.ok (), [])

/-- HTTP status codes used by the endpoint. -/
def OK : Nat := 200
def BAD_REQUEST : Nat := 400
def UNAUTHORIZED : Nat := 401
def INTERNAL_SERVER_ERROR : Nat := 500

/-- `handle_gh` from `src/routes/github.rs`: the full endpoint pipeline,
returning the HTTP status and the outbound calls attempted.
`activityOk` / `issuesOk` are the delivery outcomes of the two sinks. -/
def handleGh (headers : Headers) (body : List Nat) (secret : String)
    (activityOk issuesOk : Bool) : Nat × List Effect :=
  if !is_authorized headers body secret then (UNAUTHORIZED, [])
  else if is_issues_event headers then
    match handleIssues body issuesOk with
    | (.ok _, effs) => (OK, effs)
    | (.error _, effs) => (INTERNAL_SERVER_ERROR, effs)
  else
    match parseJson body with
    | none => (BAD_REQUEST, [])
    | some json =>
      if !is_human_user json then (OK, [])
      else
        let req := post_to_activity_webhook "activity" body headers
        if activityOk then (OK, [.activity req.headers req.body])
        else (INTERNAL_SERVER_ERROR, [.activity req.headers req.body])

/-- The header map that the spec claims the raw forward carries: the
inbound pairs with the `authorization` and `host` entries removed and
every other pair unchanged.  (Spec-side definition, to be compared with
the code's `forwardHeaders`.) -/
def strippedHeaders (headers : Headers) : Headers :=
  headers.filter (fun p => decide (p.1 ≠ "authorization" ∧ p.1 ≠ "host"))

/-- The secret of the repository's `tests::hash` fixture: the 26
characters of `It` + U+0027 + `s a Secret to Everybody` (the apostrophe
is spelled via its code point). -/
def testSecret : String :=
  String.mk ['I', 't', Char.ofNat 39, 's', ' ', 'a', ' ', 'S', 'e', 'c',
    'r', 'e', 't', ' ', 't', 'o', ' ', 'E', 'v', 'e', 'r', 'y', 'b', 'o',
    'd', 'y']

/-- A correctly signed `x-hub-signature-256` header entry for the given
secret and body. -/
def signedHeader (secret : String) (body : List Nat) : String × String :=
  ("x-hub-signature-256",
    "sha256=" ++ hexEncode (hmacSha256 (utf8Bytes secret) body))

/-! ### Helper lemmas -/

lemma foldl_and_eq {α : Type} (g : α → Bool) (l : List α) (acc : Bool) :
    l.foldl (fun acc p => acc && g p) acc = (acc && l.all g) := by
  induction l generalizing acc with
  | nil => simp
  | cons a l ih => simp [List.foldl_cons, ih, List.all_cons, Bool.and_assoc]

lemma zipAll_eq_iff (x y : List Nat) (h : x.length = y.length) :
    ((x.zip y).all (fun p => p.1 == p.2) = true) ↔ x = y := by
  induction x generalizing y with
  | nil =>
    cases y with
    | nil => simp
    | cons b ys => simp at h
  | cons a xs ih =>
    cases y with
    | nil => simp at h
    | cons b ys =>
      simp only [List.zip_cons_cons, List.all_cons, Bool.and_eq_true,
        beq_iff_eq, List.cons.injEq]
      exact and_congr_right fun _ => ih ys (by simpa using h)

/-- The `subtle` comparison is functionally plain equality. -/
lemma ctEq_eq_true_iff (x y : List Nat) : ctEq x y = true ↔ x = y := by
  have h1 : ctEq x y =
      ((x.length == y.length) && (x.zip y).all (fun p => p.1 == p.2)) := by
    unfold ctEq
    rw [foldl_and_eq (fun p => p.1 == p.2) (x.zip y) true]
    simp
  rw [h1, Bool.and_eq_true, beq_iff_eq]
  constructor
  · rintro ⟨hlen, hall⟩
    exact (zipAll_eq_iff x y hlen).mp hall
  · rintro rfl
    exact ⟨rfl, (zipAll_eq_iff x x rfl).mpr rfl⟩

lemma wordBytes_mem_lt {w b : Nat} (hb : b ∈ wordBytes w) : b < 256 := by
  simp [wordBytes] at hb
  rcases hb with rfl | rfl | rfl | rfl <;> exact Nat.mod_lt _ (by norm_num)

lemma sha256_mem_lt (msg : List Nat) : ∀ b ∈ sha256 msg, b < 256 := by
  intro b hb
  simp only [sha256, List.mem_append] at hb
  rcases hb with ((((((h | h) | h) | h) | h) | h) | h) | h <;>
    exact wordBytes_mem_lt h

lemma hmacSha256_mem_lt (key msg : List Nat) :
    ∀ b ∈ hmacSha256 key msg, b < 256 := by
  intro b hb
  simp only [hmacSha256] at hb
  exact sha256_mem_lt _ b hb

lemma sha256_ne_nil (msg : List Nat) : sha256 msg ≠ [] := by
  simp [sha256, wordBytes]

lemma hmacSha256_ne_nil (key msg : List Nat) : hmacSha256 key msg ≠ [] := by
  simp only [hmacSha256]
  exact sha256_ne_nil _

lemma hexVal_hexChar : ∀ v, v < 16 → hexDigitVal (hexDigitChar v) = some v := by
  decide

/-- Hex encoding round-trips through `hex::decode` on genuine bytes. -/
lemma hexDecodeChars_hexEncodeBytes :
    ∀ bs : List Nat, (∀ b ∈ bs, b < 256) →
      hexDecodeChars (hexEncodeBytes bs) = some bs := by
  intro bs
  induction bs with
  | nil => intro _; rfl
  | cons b rest ih =>
    intro h
    have hb : b < 256 := h b (by simp)
    have h1 := hexVal_hexChar (b / 16) (by omega)
    have h2 := hexVal_hexChar (b % 16) (Nat.mod_lt _ (by norm_num))
    have h3 := ih (fun x hx => h x (by simp [hx]))
    have hb' : 16 * (b / 16) + b % 16 = b := by omega
    simp only [hexEncodeBytes, hexDecodeChars, h1, h2, h3, Option.bind_eq_bind,
      Option.some_bind, hb']
    rfl

lemma s_ne_hexDigitChar : ∀ v, v < 16 → ('s' == hexDigitChar v) = false := by
  decide

lemma trimSha256_cons_ne (c : Char) (cs : List Char) (hc : c ≠ 's') :
    trimSha256 (c :: cs) = c :: cs := by
  rw [trimSha256.eq_def]
  split
  · rename_i heq
    rw [List.cons.injEq] at heq
    exact absurd heq.1 hc
  · rfl

/-- Stripping the `sha256=` prefix of a hex-encoded byte string leaves
exactly the hex characters. -/
lemma trimSha256_hexEncodeBytes (bs : List Nat) (h : ∀ b ∈ bs, b < 256) :
    trimSha256 (hexEncodeBytes bs) = hexEncodeBytes bs := by
  cases bs with
  | nil => rfl
  | cons b rest =>
    have hb : b < 256 := h b (by simp)
    have hs : hexDigitChar (b / 16) ≠ 's' := by
      intro hcontra
      have := s_ne_hexDigitChar (b / 16) (by omega)
      rw [hcontra] at this
      simp at this
    simp only [hexEncodeBytes]
    exact trimSha256_cons_ne _ _ hs

lemma sha256_prefix_toList (s : String) :
    ("sha256=" ++ s).toList = sigPat ++ s.toList := by
  show ("sha256=" ++ s).data = sigPat ++ s.data
  rw [String.data_append]
  rfl

lemma trimSha256_sigPat (cs : List Char) :
    trimSha256 (sigPat ++ cs) = trimSha256 cs := rfl

/-- Reduction of `is_authorized` when the signature header is absent. -/
lemma is_authorized_none (headers : Headers) (body : List Nat)
    (secret : String) (h : extract_signature headers = none) :
    is_authorized headers body secret = false := by
  unfold is_authorized
  rw [h]

/-- Reduction of `is_authorized` when the signature header is present. -/
lemma is_authorized_some (headers : Headers) (body : List Nat)
    (secret : String) (s : String) (h : extract_signature headers = some s) :
    is_authorized headers body secret =
      match hexDecode s with
      | none => false
      | some decoded => ctEq decoded (hmacSha256 (utf8Bytes secret) body) := by
  unfold is_authorized
  rw [h]

/-- Shared round-trip fact: a request whose signature header carries
`sha256=` followed by the hex HMAC-SHA256 of the body under the secret
is accepted. -/
lemma is_authorized_of_signed (headers : Headers) (body : List Nat)
    (secret : String)
    (h : headerGet headers "x-hub-signature-256" =
      some ("sha256=" ++ hexEncode (hmacSha256 (utf8Bytes secret) body))) :
    is_authorized headers body secret = true := by
  have hlt := hmacSha256_mem_lt (utf8Bytes secret) body
  have hext : extract_signature headers =
      some (String.mk (hexEncodeBytes (hmacSha256 (utf8Bytes secret) body))) := by
    unfold extract_signature
    rw [h]
    simp only [Option.map_some']
    have h2 : trimSha256
        (("sha256=" ++
          hexEncode (hmacSha256 (utf8Bytes secret) body)).toList) =
        hexEncodeBytes (hmacSha256 (utf8Bytes secret) body) := by
      rw [sha256_prefix_toList, trimSha256_sigPat]
      exact trimSha256_hexEncodeBytes _ hlt
    rw [h2]
  rw [is_authorized_some headers body secret _ hext]
  have hdec : hexDecode
      (String.mk (hexEncodeBytes (hmacSha256 (utf8Bytes secret) body))) =
      some (hmacSha256 (utf8Bytes secret) body) :=
    hexDecodeChars_hexEncodeBytes _ hlt
  rw [hdec]
  exact (ctEq_eq_true_iff _ _).mpr rfl

/-- Reduction of `getIssueAction` once the body has parsed. -/
lemma getIssueAction_parsed (body : List Nat) (j : Json)
    (h : parseJson body = some j) :
    getIssueAction body =
      match jsonGet j "action" with
      | none =>
        Except.error "Json body for issue event is missing required action field"
      | some v =>
        match jsonAsStr v with
        | none =>
          Except.error "Field action on issues json body is not a string."
        | some s => githubIssuesActionFromStr s := by
  unfold getIssueAction
  rw [h]

/-- Reduction of `handleIssues` on a `get_issue_action` failure. -/
lemma handleIssues_error (body : List Nat) (issuesOk : Bool) (e : String)
    (h : getIssueAction body = .error e) :
    handleIssues body issuesOk = (.error e, []) := by
  unfold handleIssues
  rw [h]

/-- Reduction of `handleIssues` once the action is known. -/
lemma handleIssues_ok_action (body : List Nat) (issuesOk : Bool)
    (act : GithubIssuesAction) (h : getIssueAction body = .ok act) :
    handleIssues body issuesOk =
      if !act.is_label then (.ok (), [])
      else
        match fromSliceLabelEvent body with
        | .error e => (.error e, [])
        | .ok label_event =>
          if should_report label_event then
            if issuesOk then (.ok (), [.goodFirstIssue])
            else
              (.error "Failed to send message to webhook", [.goodFirstIssue])
          else (.ok (), []) := by
  unfold handleIssues
  rw [h]

/-- Reduction of `handleGh` for a verified issues-event request. -/
lemma handleGh_authorized_issues (headers : Headers) (body : List Nat)
    (secret : String) (activityOk issuesOk : Bool)
    (h1 : is_authorized headers body secret = true)
    (h2 : is_issues_event headers = true) :
    handleGh headers body secret activityOk issuesOk =
      match handleIssues body issuesOk with
      | (.ok _, effs) => (OK, effs)
      | (.error _, effs) => (INTERNAL_SERVER_ERROR, effs) := by
  unfold handleGh
  rw [h1, h2]
  rfl

/-- Reduction of `handleGh` for a verified generic (non-issues)
request. -/
lemma handleGh_authorized_generic (headers : Headers) (body : List Nat)
    (secret : String) (activityOk issuesOk : Bool)
    (h1 : is_authorized headers body secret = true)
    (h2 : is_issues_event headers = false) :
    handleGh headers body secret activityOk issuesOk =
      match parseJson body with
      | none => (BAD_REQUEST, [])
      | some json =>
        if !is_human_user json then (OK, [])
        else
          let req := post_to_activity_webhook "activity" body headers
          if activityOk then (OK, [.activity req.headers req.body])
          else (INTERNAL_SERVER_ERROR, [.activity req.headers req.body]) := by
  unfold handleGh
  rw [h1, h2]
  rfl

/-! ### The claims -/

/-- C1: `should_report` returns true iff all three conditions hold: the
action equals `labeled`, the issue state equals `open`, and the event
carries a label named exactly `good first issue` (exact string equality,
not substring).  Since this is an equivalence, flipping any single
condition makes the predicate false. -/
theorem C1_should_report_iff (e : GithubIssueLabelEvent) :
    should_report e = true ↔
      e.action = "labeled" ∧ e.issue.state = "open" ∧
        ∃ l, e.label = some l ∧ l.name = "good first issue" := by
  cases hl : e.label with
  | none => simp [should_report, hl]
  | some l => simp [should_report, hl, and_assoc]

/-- C9: `is_human_user` returns true iff the payload has a `sender`
member whose `type` member is the JSON string `"User"`; every other
shape (missing members, non-string type, other strings) yields false. -/
theorem C9_is_human_user_iff (j : Json) :
    is_human_user j = true ↔
      ∃ sender, jsonGet j "sender" = some sender ∧
        jsonGet sender "type" = some (Json.str "User") := by
  unfold is_human_user
  cases hs : jsonGet j "sender" with
  | none => simp [hs]
  | some sender =>
    simp only [hs, Option.bind_eq_bind, Option.some_bind]
    cases ht : jsonGet sender "type" with
    | none => simp [ht]
    | some t => cases t <;> simp [ht, jsonAsStr]

/-- C2: `is_authorized` fails closed: it returns false when the
signature header is absent, when the header value is not valid hex, and
when the decoded digest differs from the HMAC-SHA256 of the raw body
under the secret.  (Totality is by construction of the embedding; the
constant-time execution of the final comparison is a timing property
outside it — `ctEq` models `subtle`'s comparison, which accumulates all
byte comparisons without short-circuiting.) -/
theorem C2_is_authorized_fails_closed (headers : Headers) (body : List Nat)
    (secret : String) :
    (extract_signature headers = none →
      is_authorized headers body secret = false) ∧
    (∀ s, extract_signature headers = some s → hexDecode s = none →
      is_authorized headers body secret = false) ∧
    (∀ s ds, extract_signature headers = some s → hexDecode s = some ds →
      ds ≠ hmacSha256 (utf8Bytes secret) body →
      is_authorized headers body secret = false) := by
  refine ⟨?_, ?_, ?_⟩
  · intro h
    exact is_authorized_none headers body secret h
  · intro s hs hhex
    rw [is_authorized_some headers body secret s hs, hhex]
  · intro s ds hs hhex hne
    rw [is_authorized_some headers body secret s hs, hhex]
    rw [← Bool.not_eq_true, ctEq_eq_true_iff]
    exact hne

/-- Witness for C2: a request with no signature header, one with
non-hex signature text, and one whose decoded digest (the empty byte
string, from the bare header value `sha256=`) mismatches the HMAC are
all rejected. -/
theorem C2_witness :
    is_authorized [] [1] "k" = false ∧
    is_authorized [("x-hub-signature-256", "zz")] [1] "k" = false ∧
    is_authorized [("x-hub-signature-256", "sha256=")] [1] "k" = false :=
  ⟨(C2_is_authorized_fails_closed [] [1] "k").1 rfl,
   (C2_is_authorized_fails_closed _ [1] "k").2.1 "zz" rfl rfl,
   (C2_is_authorized_fails_closed _ [1] "k").2.2 "" [] rfl rfl
     (Ne.symm (hmacSha256_ne_nil _ _))⟩

/-- C3: signing/verifying round trip — for every body (byte sequence)
and secret, a request whose `x-hub-signature-256` header carries
`sha256=` followed by the lowercase hex HMAC-SHA256 of the body under
the secret is accepted by `is_authorized`. -/
theorem C3_sign_verify_round_trip (body : List Nat) (secret : String)
    (hbody : ∀ b ∈ body, b < 256) :
    is_authorized
      [("x-hub-signature-256",
        "sha256=" ++ hexEncode (hmacSha256 (utf8Bytes secret) body))]
      body secret = true :=
  is_authorized_of_signed _ _ _ rfl

/-- Witness for C3 at the body `Hi` ([72, 105]) and secret `k`. -/
theorem C3_witness :
    (∀ b ∈ [72, 105], b < 256) ∧
    is_authorized
      [("x-hub-signature-256",
        "sha256=" ++ hexEncode (hmacSha256 (utf8Bytes "k") [72, 105]))]
      [72, 105] "k" = true :=
  ⟨by decide, C3_sign_verify_round_trip [72, 105] "k" (by decide)⟩

/-- Counterexample for C5: the hex HMAC-SHA256 of `Hello, World!` under
the test secret does not equal the digest string printed in the spec
(which has only 63 characters — it is missing the final `7`). -/
theorem C5_counterexample :
    hexEncode (hmacSha256 (utf8Bytes testSecret) (utf8Bytes "Hello, World!")) ≠
      "757107ea0eb2509fc211221cce984b8a37570b6d7586c22c46f4379c8b043e1" := by
  decide

/-- C5 as amended: the digest equals the 64-character reference value of
the repository's `tests::hash` fixture, ending in `17`. -/
theorem C5_amended_reference_digest :
    hexEncode (hmacSha256 (utf8Bytes testSecret) (utf8Bytes "Hello, World!")) =
      "757107ea0eb2509fc211221cce984b8a37570b6d7586c22c46f4379c8b043e17" ∧
    ("757107ea0eb2509fc211221cce984b8a37570b6d7586c22c46f4379c8b043e17" :
      String).length = 64 := by
  constructor
  · decide
  · rfl

/-- The sanitizing fold of `post_to_activity_webhook`, run from any
accumulator whose names are disjoint from the remaining input names:
when the inbound names are pairwise distinct, each `insert` is a plain
append, so the fold is the filtered input. -/
lemma forwardHeaders_go (hs : Headers) :
    ∀ acc : Headers,
      (∀ p ∈ hs, ∀ q ∈ acc, p.1 ≠ q.1) →
      (hs.map Prod.fst).Nodup →
      hs.foldl
        (fun m p =>
          if p.1 ≠ "authorization" ∧ p.1 ≠ "host" then headerInsert m p.1 p.2
          else m) acc = acc ++ strippedHeaders hs := by
  induction hs with
  | nil =>
    intro acc _ _
    simp [strippedHeaders]
  | cons p rest ih =>
    intro acc hdisj hnd
    have hnotmem : p.1 ∉ rest.map Prod.fst := by
      rw [List.map_cons, List.nodup_cons] at hnd
      exact hnd.1
    have hnd' : (rest.map Prod.fst).Nodup := by
      rw [List.map_cons, List.nodup_cons] at hnd
      exact hnd.2
    have hpnotin : ∀ r ∈ rest, r.1 ≠ p.1 := by
      intro r hr heq
      exact hnotmem (heq ▸ List.mem_map_of_mem Prod.fst hr)
    simp only [List.foldl_cons]
    by_cases hp : p.1 ≠ "authorization" ∧ p.1 ≠ "host"
    · rw [if_pos hp]
      have hins : headerInsert acc p.1 p.2 = acc ++ [(p.1, p.2)] := by
        unfold headerInsert
        congr 1
        apply List.filter_eq_self.mpr
        intro q hq
        exact decide_eq_true (Ne.symm (hdisj p (by simp) q hq))
      have hdisj' : ∀ r ∈ rest, ∀ q ∈ acc ++ [(p.1, p.2)], r.1 ≠ q.1 := by
        intro r hr q hq
        rcases List.mem_append.mp hq with hq | hq
        · exact hdisj r (by simp [hr]) q hq
        · simp at hq
          rw [hq]
          exact hpnotin r hr
      rw [hins, ih (acc ++ [(p.1, p.2)]) hdisj' hnd', List.append_assoc]
      congr 1
      have hcons : strippedHeaders (p :: rest) =
          (p.1, p.2) :: strippedHeaders rest := by
        simp [strippedHeaders, List.filter_cons, hp]
      rw [hcons]
      rfl
    · rw [if_neg hp]
      have hdisj' : ∀ r ∈ rest, ∀ q ∈ acc, r.1 ≠ q.1 :=
        fun r hr q hq => hdisj r (by simp [hr]) q hq
      rw [ih acc hdisj' hnd']
      congr 1
      simp [strippedHeaders, List.filter_cons, hp]

/-- On duplicate-free header names, the code's sanitizing fold equals
the spec's filtered map. -/
lemma forwardHeaders_eq_strippedHeaders (headers : Headers)
    (hnd : (headers.map Prod.fst).Nodup) :
    forwardHeaders headers = strippedHeaders headers := by
  have h := forwardHeaders_go headers [] (by simp) hnd
  simpa [forwardHeaders] using h

/-- Counterexample for C7: `HeaderMap::insert` replaces all previous
values of a name, so a header name carried twice loses its first value
on the forward path — the outbound map is not the inbound map minus
`authorization`/`host`. -/
theorem C7_counterexample :
    (post_to_activity_webhook "activity" [1]
        [("accept", "1"), ("accept", "2")]).headers ≠
      strippedHeaders [("accept", "1"), ("accept", "2")] := by
  decide

/-- C7 as amended: the outbound body is byte-for-byte the inbound body;
and when no header name occurs twice, the outbound header map is
exactly the inbound map with the `authorization` and `host` entries
removed (for a repeated name, only its last value survives). -/
theorem C7_amended_raw_forward (url : String) (body : List Nat)
    (headers : Headers) (hnd : (headers.map Prod.fst).Nodup) :
    (post_to_activity_webhook url body headers).body = body ∧
    (post_to_activity_webhook url body headers).headers =
      strippedHeaders headers :=
  ⟨rfl, forwardHeaders_eq_strippedHeaders headers hnd⟩

/-- Witness for C7 on a concrete three-entry header map. -/
theorem C7_witness :
    (post_to_activity_webhook "activity" [7]
        [("authorization", "token"), ("host", "example.com"),
         ("content-type", "application/json")]).body = [7] ∧
    (post_to_activity_webhook "activity" [7]
        [("authorization", "token"), ("host", "example.com"),
         ("content-type", "application/json")]).headers =
      strippedHeaders
        [("authorization", "token"), ("host", "example.com"),
         ("content-type", "application/json")] :=
  C7_amended_raw_forward "activity" [7] _ (by decide)

/-- C6: a request failing the signature check is answered with 401 and
produces no effect at all — the handler returns before any payload
parsing, classification or outbound call (in the embedding, the result
carries an empty effect list and is independent of everything after the
guard). -/
theorem C6_unauthorized_rejected_early (headers : Headers) (body : List Nat)
    (secret : String) (activityOk issuesOk : Bool)
    (h : is_authorized headers body secret = false) :
    handleGh headers body secret activityOk issuesOk = (UNAUTHORIZED, []) := by
  unfold handleGh
  rw [h]
  rfl

/-- Witness for C6: a request with no signature header at all. -/
theorem C6_witness : handleGh [] [72] "k" true true = (UNAUTHORIZED, []) :=
  C6_unauthorized_rejected_early [] [72] "k" true true rfl

/-- C8: on the issues path, a payload whose top-level `action` is a
known non-label action short-circuits: the handler returns 200 with no
outbound call, for every payload with that `action` — in particular the
conclusion does not require the full structured decode to succeed, so it
also covers bodies whose remainder is absent or malformed. -/
theorem C8_non_label_action_short_circuits (headers : Headers)
    (body : List Nat) (secret : String) (activityOk issuesOk : Bool)
    (j : Json) (a : String) (act : GithubIssuesAction)
    (h1 : is_authorized headers body secret = true)
    (h2 : is_issues_event headers = true)
    (h3 : parseJson body = some j)
    (h4 : jsonGet j "action" = some (Json.str a))
    (h5 : githubIssuesActionFromStr a = .ok act)
    (h6 : act.is_label = false) :
    handleGh headers body secret activityOk issuesOk = (OK, []) := by
  have hga : getIssueAction body = .ok act := by
    rw [getIssueAction_parsed body j h3, h4]
    exact h5
  have hhi : handleIssues body issuesOk = (.ok (), []) := by
    rw [handleIssues_ok_action body issuesOk act hga, h6]
    rfl
  rw [handleGh_authorized_issues headers body secret activityOk issuesOk h1 h2,
    hhi]

/-- Witness for C8: a signed issues request whose whole body is the
object with the single member `action: closed`. -/
theorem C8_witness :
    handleGh
      [("x-github-event", "issues"),
       signedHeader "k" (utf8Bytes "\x7b\"action\":\"closed\"\x7d")]
      (utf8Bytes "\x7b\"action\":\"closed\"\x7d") "k" true true = (OK, []) :=
  C8_non_label_action_short_circuits _ _ _ true true
    (Json.obj [("action", Json.str "closed")]) "closed" .closed
    (is_authorized_of_signed _ _ _ rfl) rfl rfl rfl rfl rfl

/-- C10: a verified issues request whose body is valid JSON but whose
`action` cannot be mapped to the known enumeration (unknown string,
missing field or non-string field — exactly the error cases of
`get_issue_action`) is answered with 500 and no outbound call. -/
theorem C10_unknown_action_server_error (headers : Headers)
    (body : List Nat) (secret : String) (activityOk issuesOk : Bool)
    (j : Json) (e : String)
    (h1 : is_authorized headers body secret = true)
    (h2 : is_issues_event headers = true)
    (h3 : parseJson body = some j)
    (h4 : getIssueAction body = .error e) :
    handleGh headers body secret activityOk issuesOk =
      (INTERNAL_SERVER_ERROR, []) := by
  rw [handleGh_authorized_issues headers body secret activityOk issuesOk h1 h2,
    handleIssues_error body issuesOk e h4]

/-- Witness for C10: a signed issues request with the unknown action
string `sparkled`. -/
theorem C10_witness :
    handleGh
      [("x-github-event", "issues"),
       signedHeader "k" (utf8Bytes "\x7b\"action\":\"sparkled\"\x7d")]
      (utf8Bytes "\x7b\"action\":\"sparkled\"\x7d") "k" true true =
      (INTERNAL_SERVER_ERROR, []) :=
  C10_unknown_action_server_error _ _ _ true true
    (Json.obj [("action", Json.str "sparkled")])
    "Unknown Github Issue Action: sparkled"
    (is_authorized_of_signed _ _ _ rfl) rfl rfl rfl

/-- Counterexample for C4: a verified request on the issues path with
the malformed body `\x7b` is answered with 500, not 400 — `handle_gh`
maps every `handle_issues` error, including body-decode failures, to
`INTERNAL_SERVER_ERROR`. -/
theorem C4_counterexample :
    (handleGh
        [("x-github-event", "issues"), signedHeader "k" (utf8Bytes "\x7b")]
        (utf8Bytes "\x7b") "k" true true).1 = INTERNAL_SERVER_ERROR ∧
    INTERNAL_SERVER_ERROR ≠ BAD_REQUEST := by
  constructor
  · have h1 : is_authorized
        [("x-github-event", "issues"), signedHeader "k" (utf8Bytes "\x7b")]
        (utf8Bytes "\x7b") "k" = true :=
      is_authorized_of_signed _ _ _ (by rfl)
    unfold handleGh
    rw [h1]
    rfl
  · decide

/-- C4 as amended: a malformed or undecodable body on a verified
request yields 400 on the generic path (the JSON parse of `handle_gh`),
but 500 on the issues path (every `handle_issues` error, including its
body decodes, is mapped to `INTERNAL_SERVER_ERROR`). -/
theorem C4_amended_status_mapping :
    (∀ (headers : Headers) (body : List Nat) (secret : String)
       (activityOk issuesOk : Bool),
       is_authorized headers body secret = true →
       is_issues_event headers = false →
       parseJson body = none →
       handleGh headers body secret activityOk issuesOk =
         (BAD_REQUEST, [])) ∧
    (∀ (headers : Headers) (body : List Nat) (secret : String)
       (activityOk issuesOk : Bool) (e : String),
       is_authorized headers body secret = true →
       is_issues_event headers = true →
       (handleIssues body issuesOk).1 = Except.error e →
       handleGh headers body secret activityOk issuesOk =
         (INTERNAL_SERVER_ERROR, (handleIssues body issuesOk).2)) := by
  constructor
  · intro headers body secret activityOk issuesOk h1 h2 h3
    rw [handleGh_authorized_generic headers body secret activityOk issuesOk
      h1 h2, h3]
  · intro headers body secret activityOk issuesOk e h1 h2 h3
    rw [handleGh_authorized_issues headers body secret activityOk issuesOk
      h1 h2]
    rcases hq : handleIssues body issuesOk with ⟨r, effs⟩
    rw [hq] at h3
    cases r with
    | ok u => exact Except.noConfusion h3
    | error msg => rfl

/-- Witness for C4: the malformed body `\x7b` on the generic path (400)
and on the issues path (500). -/
theorem C4_witness :
    handleGh [signedHeader "k" (utf8Bytes "\x7b")] (utf8Bytes "\x7b") "k"
      true true = (BAD_REQUEST, []) ∧
    handleGh
      [("x-github-event", "issues"), signedHeader "k" (utf8Bytes "\x7b")]
      (utf8Bytes "\x7b") "k" true true = (INTERNAL_SERVER_ERROR, []) := by
  constructor
  · exact C4_amended_status_mapping.1 _ _ _ true true
      (is_authorized_of_signed _ _ _ (by rfl)) (by rfl) (by rfl)
  · exact (C4_amended_status_mapping.2 _ _ _ true true "invalid json body"
      (is_authorized_of_signed _ _ _ (by rfl)) (by rfl) (by rfl)).trans rfl

end Biomebot

